import Mathlib

/-!
Verification of the public-health data-lake ETL core
(`src/etl/normalize_healthdata.py` and
`local_run/src/athena_runner/local_duckdb.py`).

The Python code is shallowly embedded: pure functions become Lean
functions, the pandas/dict operations are modelled over an explicit
Python-value type `PyVal`, stateful code (manifest read-modify-write,
partition writes) is modelled by explicit state passing, and fallible
Python code (uncaught exceptions) returns `Except`.  External
collaborators (sha256, JSON decoding, the storage backend, the pycountry
database, the DuckDB engine) are passed in as parameters or modelled as
explicit tables, as noted at each definition.
-/

namespace HealthLake

/-- A Python value as the ETL code manipulates one after `json.loads`:
`None`, `str`, `int`, `list`, `dict` (string keys, insertion order kept).
JSON floats and bools are outside the modelled scope; none of the code
paths verified here branches on them. -/
inductive PyVal where
  | pnone
  | pstr (s : String)
  | pint (n : Int)
  | plist (xs : List PyVal)
  | pdict (kvs : List (String × PyVal))

/-- Whitespace-trim of a character list (`str.strip()`; ASCII whitespace,
which covers the inputs handled here). -/
def trimChars (cs : List Char) : List Char :=
  ((cs.dropWhile Char.isWhitespace).reverse.dropWhile Char.isWhitespace).reverse

/-- `str.strip()` as a string-to-string function. -/
def sTrim (s : String) : String :=
  String.mk (trimChars s.data)

/-- `str.lower()` (ASCII case folding, covering the inputs handled here). -/
def sLower (s : String) : String :=
  String.mk (s.data.map Char.toLower)

/-- The numeric value of a list of decimal digits. -/
def digitsToNat (cs : List Char) : Nat :=
  cs.foldl (fun n c => n * 10 + (c.toNat - 48)) 0

/-- Python `d.get(k)` on a dict represented as an association list
(first binding wins, as dict keys are unique). -/
def dictGet (kvs : List (String × PyVal)) (k : String) : Option PyVal :=
  (kvs.find? (fun p => p.1 == k)).map (fun p => p.2)

/-- Python truthiness (`if x:`) for the modelled values. -/
def pyTruthy : PyVal → Bool
  | .pnone => false
  | .pstr s => !s.data.isEmpty
  | .pint n => n != 0
  | .plist xs => !xs.isEmpty
  | .pdict kvs => !kvs.isEmpty

/-- Python `int(s)` on a string: optional surrounding whitespace, optional
sign, then one or more ASCII digits (the underscore and non-ASCII digit
forms Python also accepts are outside the modelled scope). -/
def pyIntOfString (s : String) : Option Int :=
  let t := trimChars s.data
  let core := match t with
    | c :: rest => if c == '-' || c == '+' then rest else t
    | [] => t
  if core.isEmpty || !core.all Char.isDigit then none
  else
    match t with
    | '-' :: _ => some (-(digitsToNat core : Int))
    | _ => some (digitsToNat core : Int)

/-- Python `int(x)` on a value: an int passes through, a string is parsed
(`ValueError` on failure), anything else is a `TypeError`. -/
def pyIntCoerce : PyVal → Except String Int
  | .pint n => .ok n
  | .pstr s =>
    match pyIntOfString s with
    | some n => .ok n
    | none => .error "ValueError"
  | _ => .error "TypeError"

/-- Iterating a Python value (`for rec in x`): a list yields its elements,
a dict its keys, a string its characters; int and None raise `TypeError`. -/
def pyIterate : PyVal → Except String (List PyVal)
  | .plist xs => .ok xs
  | .pdict kvs => .ok (kvs.map (fun p => PyVal.pstr p.1))
  | .pstr s => .ok (s.data.map (fun c => PyVal.pstr (String.mk [c])))
  | _ => .error "TypeError"

/-- A decimal numeral as `pd.to_numeric` parses one: optional sign, digits,
optional fractional part (exponent and special forms are outside the
modelled scope).  The result is exact (`ℚ`) rather than IEEE. -/
def parseDecimal (s : String) : Option Rat :=
  let t := trimChars s.data
  let neg : Bool := match t with
    | '-' :: _ => true
    | _ => false
  let core := match t with
    | c :: rest => if c == '-' || c == '+' then rest else t
    | [] => t
  match core.splitOnP (fun c => c == '.') with
  | [a] =>
    if a.isEmpty || !a.all Char.isDigit then none
    else some (if neg then -(digitsToNat a : Rat) else (digitsToNat a : Rat))
  | [a, b] =>
    if (a.isEmpty && b.isEmpty) || !a.all Char.isDigit || !b.all Char.isDigit
    then none
    else
      let q : Rat :=
        (digitsToNat a : Rat) + (digitsToNat b : Rat) / ((10 : Rat) ^ b.length)
      some (if neg then -q else q)
  | _ => none

/-- `pd.to_numeric(x, errors="coerce")` on a scalar: parse-or-null, never
raises.  `none` stands for NaN/null. -/
def to_numeric_coerce : PyVal → Option Rat
  | .pint n => some (n : Rat)
  | .pstr s => parseDecimal s
  | _ => none

/-- One manifest entry as `transform_raw_object` writes it.  The
empty-result path writes a dict without the `written_partitions` key;
`none` in this field models that absent key. -/
structure ManifestEntry where
  hash : String
  rows : Nat
  written_partitions : Option Nat
  processed_at : String
deriving DecidableEq

/-- `manifest["processed"].get(raw_key)`: the manifest's processed map as
an association list with unique keys (a JSON object). -/
def lookupEntry : List (String × ManifestEntry) → String → Option ManifestEntry
  | [], _ => none
  | p :: t, k => if p.1 = k then some p.2 else lookupEntry t k

/-- `manifest["processed"][raw_key] = entry`: Python dict assignment —
replace the value in place when the key exists (keys are unique), append
the new binding otherwise. -/
def updateEntry : List (String × ManifestEntry) → String → ManifestEntry →
    List (String × ManifestEntry)
  | [], k, v => [(k, v)]
  | p :: t, k, v => if p.1 = k then (k, v) :: t else p :: updateEntry t k v

/-- The log line each terminal path of `transform_raw_object` emits,
distinguishing the four outcomes of the orchestrator's state machine. -/
inductive TransformLog where
  | skippedUnchanged
  | invalidJson
  | noValidRows
  | processed
deriving DecidableEq

/-- `CLEAN_PREFIX` is configuration (env-injected); it is passed in as the
`cleanPfx` argument below.  The clean partition key built by
`write_clean_parquet` in CLOUD mode: `{CLEAN_PREFIX}{endpoint}/year={year}/data.parquet`
(LOCAL mode builds the same shape under the local clean directory). -/
def write_clean_parquet_key (cleanPfx endpoint : String) (year : Int) : String :=
  cleanPfx ++ endpoint ++ "/year=" ++ toString year ++ "/data.parquet"

/-- The distinct `year` values of a parsed table, ascending — the group
keys of `df.groupby("year")` (pandas sorts group keys). -/
def distinctYears {α : Type} (yearOf : α → Int) (df : List α) : List Int :=
  List.insertionSort (fun a b => a ≤ b) ((df.map yearOf).dedup)

/-- `df.groupby("year")`: one group per distinct year, each group holding
exactly the rows with that year, in input order. -/
def groupByYear {α : Type} (yearOf : α → Int) (df : List α) :
    List (Int × List α) :=
  (distinctYears yearOf df).map
    (fun y => (y, df.filter (fun r => yearOf r == y)))

/-- Everything observable about one `transform_raw_object` call: the
returned bool, the manifest as left on storage, whether `save_manifest`
ran, the partition writes (clean key paired with the full group of rows
serialized to it — each write is a `put`, a full overwrite of its key),
and which terminal log line was emitted. -/
structure TransformOut (α : Type) where
  returned : Bool
  manifest : List (String × ManifestEntry)
  manifestSaved : Bool
  writes : List (String × List α)
  log : TransformLog

/-- `transform_raw_object(raw_key, endpoint, parser)`.  External pieces are
parameters: `hashFn` is `sha256_bytes` (hashlib), `decodeJson` is
`json.loads` (`none` = `JSONDecodeError`, the only exception caught),
`parse` is the routed parser (`Except.error` = an exception it raises,
which the orchestrator does not catch), `yearOf` reads the `year` column,
`nowTs` is `_utc_now()`, `body` the raw bytes, `manifest` the processed
map `load_manifest` returned. -/
def transform_raw_object {J α : Type} (hashFn : List Nat → String)
    (decodeJson : List Nat → Option J) (parse : J → Except String (List α))
    (yearOf : α → Int) (cleanPfx nowTs raw_key endpoint : String)
    (body : List Nat) (manifest : List (String × ManifestEntry)) :
    Except String (TransformOut α) :=
  let content_hash := hashFn body
  if (lookupEntry manifest raw_key).map (fun e => e.hash) = some content_hash then
    .ok ⟨false, manifest, false, [], .skippedUnchanged⟩
  else
    match decodeJson body with
    | none => .ok ⟨false, manifest, false, [], .invalidJson⟩
    | some data =>
      match parse data with
      | .error e => .error e
      | .ok df =>
        if df.isEmpty then
          .ok ⟨false,
               updateEntry manifest raw_key ⟨content_hash, 0, none, nowTs⟩,
               true, [], .noValidRows⟩
        else
          let groups := groupByYear yearOf df
          .ok ⟨true,
               updateEntry manifest raw_key
                 ⟨content_hash, df.length, some groups.length, nowTs⟩,
               true,
               groups.map
                 (fun g => (write_clean_parquet_key cleanPfx endpoint g.1, g.2)),
               .processed⟩

/-- One row of the table `parse_gho_json` builds.  `country_code` and
`indicator_code` hold the raw values `rec.get(...)` returned (the column
is object-dtype); `year` is the `int(rec["TimeDim"])` result; `value` the
coerced numeric. -/
structure GhoRow where
  country_code : PyVal
  year : Int
  value : Option Rat
  indicator_code : PyVal

/-- The loop body of `parse_gho_json`: `year = int(rec["TimeDim"])` under a
bare `except Exception: continue`, so a non-dict record (`TypeError`), a
missing key (`KeyError`) or an unparseable value (`ValueError`) all skip
the record; after the `try`, `rec` is known to be a dict, so the
`rec.get` calls cannot raise. -/
def ghoRecRow (rec : PyVal) : Option GhoRow :=
  match rec with
  | .pdict kvs =>
    match dictGet kvs "TimeDim" with
    | none => none
    | some t =>
      match pyIntCoerce t with
      | .error _ => none
      | .ok year =>
        some { country_code := (dictGet kvs "SpatialDim").getD .pnone
               year := year
               value := to_numeric_coerce ((dictGet kvs "NumericValue").getD .pnone)
               indicator_code := (dictGet kvs "IndicatorCode").getD .pnone }
  | _ => none

/-- `df["country_code"].str.len() == 3` on an object-dtype column: true
only for a string value of exactly 3 characters (`.str` yields NaN on
None and non-string values, and `NaN == 3` is false). -/
def keepLen3 (v : PyVal) : Bool :=
  match v with
  | .pstr s => s.length == 3
  | _ => false

/-- `parse_gho_json(data)`.  `data.get("value", [])` raises
`AttributeError` when the decoded payload is not a dict; iterating a
non-iterable raises `TypeError`; and when the records list built by the
loop is empty, `pd.DataFrame([])` has no columns, so the subsequent
`df["country_code"]` raises `KeyError` — modelled by the `.error`
branches.  The `dropna(subset=["country_code", "year"])` after the length
filter is a no-op here: surviving rows have a string country code and an
int year. -/
def parse_gho_json (data : PyVal) : Except String (List GhoRow) :=
  match data with
  | .pdict kvs =>
    match pyIterate ((dictGet kvs "value").getD (.plist [])) with
    | .error e => .error e
    | .ok recs =>
      let records := recs.filterMap ghoRecRow
      if records.isEmpty then .error "KeyError"
      else .ok (records.filter (fun r => keepLen3 r.country_code))
  | _ => .error "AttributeError"

/-- One row of the list `parse_worldbank_json` builds before the
DataFrame stage; `year` is still nullable at this point. -/
structure WbRow where
  country_code : PyVal
  year : Option Int
  value : Option Rat
  indicator_id : PyVal

/-- One row of the table `parse_worldbank_json` returns, after
`dropna(subset=["country_code", "year"])` and `astype(int)`. -/
structure WbRowF where
  country_code : PyVal
  year : Int
  value : Option Rat
  indicator_id : PyVal

/-- `rec.get("indicator", {}).get("id")`: the default `{}` makes a missing
key safe, but a present non-dict value raises `AttributeError`. -/
def indicatorIdOf (kvs : List (String × PyVal)) : Except String PyVal :=
  match (dictGet kvs "indicator").getD (.pdict []) with
  | .pdict ikvs => .ok ((dictGet ikvs "id").getD .pnone)
  | _ => .error "AttributeError"

/-- The loop body of `parse_worldbank_json`.  Unlike the GHO loop there is
no try/except: a non-dict record raises `AttributeError` at the first
`rec.get`, and `int(rec["date"])` — evaluated when `rec.get("date")` is
truthy — propagates `ValueError`/`TypeError` out of the parser. -/
def wbRecRow (rec : PyVal) : Except String WbRow :=
  match rec with
  | .pdict kvs =>
    let country_code := (dictGet kvs "countryiso3code").getD .pnone
    let date := (dictGet kvs "date").getD .pnone
    match (if pyTruthy date then (pyIntCoerce date).map some
           else .ok none : Except String (Option Int)) with
    | .error e => .error e
    | .ok year =>
      let value := to_numeric_coerce ((dictGet kvs "value").getD .pnone)
      match indicatorIdOf kvs with
      | .error e => .error e
      | .ok ind => .ok ⟨country_code, year, value, ind⟩
  | _ => .error "AttributeError"

/-- `records = data[1] if isinstance(data, list) and len(data) >= 2 else
data`: the World Bank API wraps the record list in `[page_info, records]`. -/
def wbRecords (data : PyVal) : PyVal :=
  match data with
  | .plist (_ :: x1 :: _) => x1
  | _ => data

/-- The DataFrame stage of `parse_worldbank_json`: an empty row list means
a zero-column frame, so `df["country_code"]` raises `KeyError`; otherwise
filter to 3-character codes, drop rows with a null year
(`dropna(subset=["country_code", "year"])` — the code filter already
removed null codes), and `astype(int)` the year. -/
def wbFrameStage (rows : List WbRow) : Except String (List WbRowF) :=
  if rows.isEmpty then .error "KeyError"
  else
    .ok (((rows.filter (fun r => keepLen3 r.country_code)).filter
            (fun r => r.year.isSome)).filterMap
          (fun r => r.year.map
            (fun y => WbRowF.mk r.country_code y r.value r.indicator_id)))

/-- `parse_worldbank_json(data)`: unwrap the record list, run the row
loop (any row exception propagates), then the DataFrame stage. -/
def parse_worldbank_json (data : PyVal) : Except String (List WbRowF) :=
  match pyIterate (wbRecords data) with
  | .error e => .error e
  | .ok recs =>
    match recs.mapM wbRecRow with
    | .error e => .error e
    | .ok rows => wbFrameStage rows

/-- A pycountry country record: the fields `pycountry.countries.lookup`
matches against (name, alpha_2, alpha_3, and the optional official and
common names). -/
structure Country where
  name : String
  alpha_2 : String
  alpha_3 : String
  official_name : Option String
  common_name : Option String

/-- Modelled external database: the pycountry ISO-3166 table restricted to
the countries these proofs exercise.  The extractor's algorithmic
properties proved below (right-to-left segment order, the 40-character
cap, first-success-wins) hold for any table contents. -/
def pycountryCountries : List Country :=
  [⟨"Nigeria", "NG", "NGA", some "Federal Republic of Nigeria", none⟩,
   ⟨"France", "FR", "FRA", some "French Republic", none⟩,
   ⟨"Chad", "TD", "TCD", some "Republic of Chad", none⟩,
   ⟨"Bolivia, Plurinational State of", "BO", "BOL",
     some "Plurinational State of Bolivia", some "Bolivia"⟩]

/-- `pycountry.countries.lookup(key)`: case-insensitive exact match on any
of a record's fields (ASCII case folding; the titles exercised here are
ASCII). -/
def pycountryLookup (key : String) : Option Country :=
  let k := sLower key
  pycountryCountries.find? (fun c =>
    sLower c.name == k || sLower c.alpha_2 == k || sLower c.alpha_3 == k
      || (c.official_name.map (fun s => sLower s == k)).getD false
      || (c.common_name.map (fun s => sLower s == k)).getD false)

/-- `COUNTRY_ALIASES`: colloquial/short names mapped to the official
designation before lookup. -/
def COUNTRY_ALIASES : List (String × String) :=
  [("bolivia", "Bolivia, Plurinational State of"),
   ("venezuela", "Venezuela, Bolivarian Republic of"),
   ("iran", "Iran, Islamic Republic of"),
   ("syria", "Syrian Arab Republic"),
   ("tanzania", "Tanzania, United Republic of"),
   ("laos", "Lao People's Democratic Republic"),
   ("south korea", "Korea, Republic of"),
   ("north korea", "Korea, Democratic People's Republic of"),
   ("ivory coast", "Côte d'Ivoire"),
   ("arabia", "Saudi Arabia")]

/-- The all-null country triple `(None, None, None)`. -/
def nullTriple : Option String × Option String × Option String :=
  (none, none, none)

/-- `lookup_country(name)`: falsy name short-circuits; otherwise lower,
strip, apply the alias table, and look the key up, returning
`(c.name, c.alpha_2, c.alpha_3)` or the all-null triple on `LookupError`. -/
def lookup_country (name : String) : Option String × Option String × Option String :=
  if name.data.isEmpty then nullTriple
  else
    let key := sTrim (sLower name)
    let key := ((COUNTRY_ALIASES.find? (fun p => p.1 == key)).map
                  (fun p => p.2)).getD key
    match pycountryLookup key with
    | some c => (some c.name, some c.alpha_2, some c.alpha_3)
    | none => nullTriple

/-- A dash-like separator: the character class of `re.split(r"\s*[-–—]\s*", ...)`. -/
def isDashChar (c : Char) : Bool :=
  c == '-' || c == '–' || c == '—'

/-- `re.split(r"\s*[-–—]\s*", s)`, modulo surrounding whitespace: the
caller strips every part, and stripping absorbs exactly the whitespace
the `\s*` in the pattern would have consumed, so splitting on the bare
dash characters is equivalent. -/
def splitDashSegments (s : String) : List String :=
  (s.data.splitOnP isDashChar).map String.mk

/-- The WHO lead-in phrases stripped from the front of a dash segment
(`re.sub(r"^(situation in|cases in|outbreak in|reported in)\s+", ...)`,
case-insensitive). -/
def leadInPhrases : List String :=
  ["situation in", "cases in", "outbreak in", "reported in"]

/-- Whether the character at position `n` of `s` exists and is whitespace
(the `\s+` the anchored lead-in pattern requires after the phrase). -/
def wsAt (s : String) (n : Nat) : Bool :=
  match s.data.drop n with
  | c :: _ => c.isWhitespace
  | [] => false

/-- Normalize one dash segment: strip a lead-in phrase (with its required
trailing whitespace — absorbed here by the final strip) when one matches
at the start, then strip. -/
def normalizeSegment (seg : String) : String :=
  match leadInPhrases.find? (fun p =>
      p.data.isPrefixOf (seg.data.map Char.toLower) && wsAt seg p.length) with
  | some p => String.mk (trimChars (seg.data.drop p.length))
  | none => sTrim seg

/-- Stage 1 of the extractor, on the already-reversed segment list (the
Python loop iterates `reversed(parts)`): skip a candidate longer than 40
characters or empty, return the first successful lookup. -/
def dashLoop : List String → Option (Option String × Option String × Option String)
  | [] => none
  | seg :: rest =>
    let candidate := normalizeSegment seg
    if candidate.length > 40 || candidate.data.isEmpty then dashLoop rest
    else
      let c := lookup_country candidate
      if c.1.isSome then some c else dashLoop rest

/-- A `\w` character of the stage-2 regex. -/
def isWordChar (c : Char) : Bool :=
  c.isAlphanum || c == '_'

/-- A character of the stage-2 capture class `[A-Za-z\s\-']`. -/
def stage2ClassChar (c : Char) : Bool :=
  c.isAlpha || c.isWhitespace || c == '-' || c == '\''

/-- Try one alternative of `(?:in|from|reported in)` at the current
position, then `\s+` (at least one whitespace), then the capture
`[A-Z][A-Za-z\s\-']{2,40}` taken greedily.  Returns the captured text. -/
def stage2TryAlt (alt : String) (cs : List Char) : Option String :=
  if alt.data.isPrefixOf cs then
    let rest := cs.drop alt.length
    let ws := rest.takeWhile Char.isWhitespace
    if ws.isEmpty then none
    else
      match rest.drop ws.length with
      | [] => none
      | u :: tail =>
        if u.isUpper then
          let run := (tail.takeWhile stage2ClassChar).take 40
          if run.length ≥ 2 then some (String.mk (u :: run)) else none
        else none
  else none

/-- The alternatives of the stage-2 pattern, in the pattern's order. -/
def stage2Alts : List String := ["in", "from", "reported in"]

/-- Try all alternatives at the current position (the `\b` before the
group is checked by the caller). -/
def stage2MatchAt (cs : List Char) : Option String :=
  match stage2Alts.findSome? (fun alt => stage2TryAlt alt cs) with
  | some cap => some cap
  | none => none

/-- `re.search` for the stage-2 pattern: scan left to right, at each
word-boundary position try the alternatives; first match wins. -/
def stage2Find : Option Char → List Char → Option String
  | _, [] => none
  | prev, c :: rest =>
    let boundary := match prev with
      | none => true
      | some p => !isWordChar p
    match (if boundary then stage2MatchAt (c :: rest) else none) with
    | some cap => some cap
    | none => stage2Find (some c) rest

/-- `extract_country_from_title(title)`: falsy title yields the all-null
triple; stage 1 tries the stripped dash segments right to left; stage 2
falls back to the `in/from/reported in <Capitalized phrase>` search; both
failing yields the all-null triple. -/
def extract_country_from_title (title : Option String) :
    Option String × Option String × Option String :=
  match title with
  | none => nullTriple
  | some t =>
    if t.data.isEmpty then nullTriple
    else
      let title_clean := sTrim t
      let parts := (splitDashSegments title_clean).map sTrim
      match dashLoop parts.reverse with
      | some res => res
      | none =>
        match stage2Find none title_clean.data with
        | some cap =>
          let c := lookup_country (sTrim cap)
          if c.1.isSome then c else nullTriple
        | none => nullTriple

/-- Case-insensitive (ASCII) character comparison, for the `re.IGNORECASE`
literals of the translator's patterns. -/
def charCI (a b : Char) : Bool :=
  a.toLower == b.toLower

/-- Strip a literal pattern from the front of the text, case-insensitively;
`some rest` on a match. -/
def ciStrip : List Char → List Char → Option (List Char)
  | [], rest => some rest
  | _, [] => none
  | p :: ps, c :: cs => if charCI p c then ciStrip ps cs else none

/-- A quote character of the `['\"]` class in the `date_add` pattern
(either quote may open and either may close — the two classes are
independent). -/
def isQuoteChar (c : Char) : Bool :=
  c == '\'' || c == '"'

/-- The groups of one `date_add\s*\(\s*['\"](\w+)['\"]\s*,\s*([+-]?\d+)\s*,\s*([^)]+)\)`
match, with the text remaining after the consumed match. -/
structure DateAddMatch where
  unit : String
  value : String
  dateExpr : String
  rest : List Char

/-- `\s*,` at the current position: skip whitespace and consume one
comma. -/
def matchComma (s : List Char) : Option (List Char) :=
  match s.dropWhile Char.isWhitespace with
  | ',' :: r => some r
  | _ => none

/-- `\s*([+-]?\d+)` at the current position: the optional sign, then a
non-empty maximal digit run; yields the group text (sign included) and
the remaining text.  Backtracking over `\d+` cannot rescue a failed
continuation (a shorter run is followed by a digit), so the maximal run
is the regex's. -/
def matchSignedInt (s : List Char) : Option (List Char × List Char) :=
  let r9 := s.dropWhile Char.isWhitespace
  let signed :=
    match r9 with
    | c :: cs => if c == '+' || c == '-' then ([c], cs) else (([] : List Char), r9)
    | [] => (([] : List Char), r9)
  let digits := signed.2.takeWhile Char.isDigit
  if digits.isEmpty then none
  else some (signed.1 ++ digits, signed.2.drop digits.length)

/-- `([^)]+)\)` at the current position: a non-empty run up to the first
closing parenthesis, which is consumed.  (The `\s*` before the group only
moves whitespace that `replace_date_add` strips again, so the group is
taken from the comma on.) -/
def matchExprParen (s : List Char) : Option (List Char × List Char) :=
  let expr := s.takeWhile (fun c => c != ')')
  if expr.isEmpty then none
  else
    match s.drop expr.length with
    | ')' :: r14 => some (expr, r14)
    | _ => none

/-- The tail of the `date_add` pattern after the quoted unit:
`\s*,\s*([+-]?\d+)\s*,\s*([^)]+)\)`. -/
def tryDateAddTail (unit : List Char) (r6 : List Char) : Option DateAddMatch :=
  match matchComma r6 with
  | none => none
  | some r8 =>
    match matchSignedInt r8 with
    | none => none
    | some (valueChars, r10) =>
      match matchComma r10 with
      | none => none
      | some r12 =>
        match matchExprParen r12 with
        | none => none
        | some (exprChars, r14) =>
          some ⟨String.mk unit, String.mk valueChars, String.mk exprChars, r14⟩

/-- Try the `date_add` pattern at the current position: the literal with
`\s*`, the opening parenthesis, a quoted `\w+` unit, then
`tryDateAddTail` for the value, expression and closing parenthesis. -/
def tryDateAdd (s : List Char) : Option DateAddMatch :=
  match ciStrip "date_add".data s with
  | none => none
  | some r1 =>
    match r1.dropWhile Char.isWhitespace with
    | '(' :: r3 =>
      match r3.dropWhile Char.isWhitespace with
      | q1 :: r5 =>
        if isQuoteChar q1 then
          let unit := r5.takeWhile isWordChar
          if unit.isEmpty then none
          else
            match r5.drop unit.length with
            | q2 :: r6 =>
              if isQuoteChar q2 then tryDateAddTail unit r6 else none
            | [] => none
        else none
      | [] => none
    | _ => none

/-- The fixed unit pluralization table of `replace_date_add`. -/
def unit_map : List (String × String) :=
  [("year", "years"), ("month", "months"), ("day", "days"),
   ("hour", "hours"), ("minute", "minutes"), ("second", "seconds")]

/-- `replace_date_add(match)`: lower-case the unit, strip the value and
date expression, take the operator from the value's sign (dropping a
leading minus), pluralize the unit through `unit_map` with default
`unit + "s"`, and emit the infix interval expression. -/
def replace_date_add (unitG valueG dateExprG : String) : String :=
  let unit := sLower unitG
  let value0 := sTrim valueG
  let date_expr := sTrim dateExprG
  let isNeg : Bool := match value0.data with
    | '-' :: _ => true
    | _ => false
  let operator := if isNeg then "-" else "+"
  let value := if isNeg then String.mk (value0.data.drop 1) else value0
  let duckdb_unit :=
    ((unit_map.find? (fun p => p.1 == unit)).map (fun p => p.2)).getD (unit ++ "s")
  date_expr ++ " " ++ operator ++ " INTERVAL '" ++ value ++ "' " ++ duckdb_unit

/-- `re.sub` scan for the `date_add` rule: left to right, non-overlapping,
the replacement text is not rescanned.  The fuel starts at the text's
length; every match consumes at least one character, so it never runs
out. -/
def subDateAddAux : Nat → List Char → List Char
  | 0, s => s
  | _ + 1, [] => []
  | fuel + 1, c :: rest =>
    match tryDateAdd (c :: rest) with
    | some m =>
      (replace_date_add m.unit m.value m.dateExpr).data ++ subDateAddAux fuel m.rest
    | none => c :: subDateAddAux fuel rest

/-- Rule 1 of the translator: rewrite every `date_add(...)` call. -/
def subDateAdd (s : List Char) : List Char :=
  subDateAddAux s.length s

/-- Try `word` at the current position with a trailing `\b` (the next
character, if any, is not a word character); the leading `\b` is the
scanner's concern.  Case-insensitive. -/
def tryWordBound (word : List Char) (s : List Char) : Option (List Char) :=
  match ciStrip word s with
  | none => none
  | some rest =>
    match rest with
    | [] => some rest
    | c :: _ => if isWordChar c then none else some rest

/-- Try `name\s*<opener>` at the current position (the function-call and
array-literal rules); consumes through the opener. -/
def tryNameOpen (word : List Char) (opener : Char) (s : List Char) :
    Option (List Char) :=
  match ciStrip word s with
  | none => none
  | some rest =>
    match rest.dropWhile Char.isWhitespace with
    | c :: r2 => if c == opener then some r2 else none
    | [] => none

/-- Generic `re.sub` scan for the word rules: tracks the previous original
character for the leading `\b`, continues after each match (the character
before the continuation point is the last consumed one). -/
def subScanAux (step : List Char → Option (String × List Char)) :
    Nat → Option Char → List Char → List Char
  | 0, _, s => s
  | _ + 1, _, [] => []
  | fuel + 1, prev, c :: rest =>
    let boundary := match prev with
      | none => true
      | some p => !isWordChar p
    match (if boundary then step (c :: rest) else none) with
    | some (repl, r) =>
      let consumed := (c :: rest).take ((c :: rest).length - r.length)
      repl.data ++ subScanAux step fuel consumed.getLast? r
    | none => c :: subScanAux step fuel (some c) rest

/-- One `re.sub(r"\bWORD\b", repl, sql, flags=re.IGNORECASE)` pass. -/
def subWordCI (pat repl : String) (s : List Char) : List Char :=
  subScanAux (fun t => (tryWordBound pat.data t).map (fun r => (repl, r)))
    s.length none s

/-- One `re.sub(r"\bname\s*\<opener>", repl, sql, flags=re.IGNORECASE)`
pass (`repl` includes the opener, as in the source's replacement
strings). -/
def subNameOpenCI (pat : String) (opener : Char) (repl : String)
    (s : List Char) : List Char :=
  subScanAux (fun t => (tryNameOpen pat.data opener t).map (fun r => (repl, r)))
    s.length none s

/-- `translate_athena_to_duckdb(sql)`: the ordered textual rewrites, rule 1
(`date_add` → infix interval arithmetic) first, then the keyword
case-normalizations and the function-name substitutions. -/
def translate_athena_to_duckdb (sql : String) : String :=
  let s1 := subDateAdd sql.data
  let s2 := subWordCI "CURRENT_TIMESTAMP" "current_timestamp" s1
  let s3 := subWordCI "CURRENT_DATE" "current_date" s2
  let s4 := subNameOpenCI "array" '[' "[" s3
  let s5 := subNameOpenCI "sequence" '(' "generate_series(" s4
  let s6 := subNameOpenCI "arbitrary" '(' "any_value(" s5
  let s7 := subNameOpenCI "cardinality" '(' "len(" s6
  let s8 := subNameOpenCI "from_unixtime" '(' "to_timestamp(" s7
  let s9 := subNameOpenCI "approx_distinct" '(' "approx_count_distinct(" s8
  String.mk s9

/-- The date value (days since the epoch) of the Athena text
`date_add('day', n, D)` when `D` evaluates to day number `d`. -/
def athena_date_add_days (n : Int) (d : Int) : Int :=
  d + n

/-- The date value (days since the epoch) of the DuckDB text
`D - INTERVAL '<amt>' days` when `D` evaluates to day number `d`. -/
def duckdb_minus_interval_days (amt : Nat) (d : Int) : Int :=
  d - amt

/-- One record of the `_query_metrics.json` document `run_duckdb_queries`
accumulates per successfully executed query.  `duration_ms` is wall-clock
time, which is outside the modelled scope and recorded as 0 here;
`outputs` are the evidence files written for the enabled export
formats. -/
structure QueryMetric where
  query : String
  rows : Nat
  duration_ms : Nat
  outputs : List String
  format_json : Bool
  format_csv : Bool
  translated : Bool
deriving DecidableEq

/-- The evidence files written for one query under the configured export
flags, in the source's order (JSON first, then CSV). -/
def outputsFor (evidenceDir stem : String) (exportJson exportCsv : Bool) :
    List String :=
  (if exportJson then [evidenceDir ++ "/" ++ stem ++ ".json"] else []) ++
    (if exportCsv then [evidenceDir ++ "/" ++ stem ++ ".csv"] else [])

/-- What one `run_duckdb_queries` call did: which query stems it started
executing (the "Executing query" log), and either the metrics list that
was written to `_query_metrics.json` at the end, or the exception that
propagated out (`raise`), in which case no metrics document is written. -/
structure DuckRunOut where
  executed : List String
  result : Except String (List QueryMetric)

/-- The query loop of `run_duckdb_queries` over the sorted `.sql` files,
each given as (stem, text).  `exec` is the DuckDB engine
(`con.execute(...).fetchdf()` modelled as returning the row count or the
exception's message).  A failing query is logged and the exception
re-raised: the loop stops, later files are not executed, and the metrics
document is never written. -/
def runLoop (exec : String → Except String Nat) (evidenceDir : String)
    (exportJson exportCsv : Bool) :
    List (String × String) → DuckRunOut
  | [] => ⟨[], .ok []⟩
  | (stem, athena_sql) :: restFiles =>
    let duckdb_sql := translate_athena_to_duckdb athena_sql
    match exec duckdb_sql with
    | .error e => ⟨[stem], .error e⟩
    | .ok nrows =>
      let metric : QueryMetric :=
        ⟨stem, nrows, 0, outputsFor evidenceDir stem exportJson exportCsv,
         exportJson, exportCsv, athena_sql != duckdb_sql⟩
      let tail := runLoop exec evidenceDir exportJson exportCsv restFiles
      ⟨stem :: tail.executed, tail.result.map (fun ms => metric :: ms)⟩

/-- Lexicographic order on character data (Python's path ordering,
restricted to the stems compared here). -/
def charListLe : List Char → List Char → Bool
  | [], _ => true
  | _ :: _, [] => false
  | a :: as, b :: bs =>
    if a.toNat < b.toNat then true
    else if b.toNat < a.toNat then false
    else charListLe as bs

/-- `sorted(sql_dir.glob("*.sql"))`: the files in ascending path order,
here by stem (a stable sort, as Python's). -/
def sortFilesByStem (files : List (String × String)) : List (String × String) :=
  List.insertionSort (fun a b => charListLe a.1.data b.1.data = true) files

/-- `run_duckdb_queries()` from the guard on an empty file list (a
`RuntimeError` aborting the invocation) through the query loop.  The
MODE/SQL-directory/dataset-registration preconditions and the view
registration are filesystem and engine concerns carried by `exec`. -/
def run_duckdb_queries (exec : String → Except String Nat)
    (evidenceDir : String) (exportJson exportCsv : Bool)
    (files : List (String × String)) : DuckRunOut :=
  if files.isEmpty then ⟨[], .error "RuntimeError"⟩
  else runLoop exec evidenceDir exportJson exportCsv (sortFilesByStem files)

/-- Looking a key up right after writing it finds the written entry. -/
theorem lookupEntry_updateEntry (m : List (String × ManifestEntry)) (k : String)
    (v : ManifestEntry) : lookupEntry (updateEntry m k v) k = some v := by
  induction m with
  | nil => simp [updateEntry, lookupEntry]
  | cons p t ih =>
    by_cases hp : p.1 = k
    · simp [updateEntry, lookupEntry, hp]
    · simp [updateEntry, lookupEntry, hp, ih]

/-- Evaluation of `transform_raw_object` on the unchanged path: the stored
hash equals the current one. -/
theorem transform_eval_skip {J α : Type} (hashFn : List Nat → String)
    (decodeJson : List Nat → Option J) (parse : J → Except String (List α))
    (yearOf : α → Int) (cleanPfx nowTs raw_key endpoint : String)
    (body : List Nat) (manifest : List (String × ManifestEntry))
    (hc : (lookupEntry manifest raw_key).map (fun e => e.hash)
        = some (hashFn body)) :
    transform_raw_object hashFn decodeJson parse yearOf cleanPfx nowTs raw_key
        endpoint body manifest
      = .ok ⟨false, manifest, false, [], .skippedUnchanged⟩ := by
  unfold transform_raw_object
  rw [if_pos hc]

/-- Evaluation of `transform_raw_object` on the invalid-JSON path. -/
theorem transform_eval_invalid {J α : Type} (hashFn : List Nat → String)
    (decodeJson : List Nat → Option J) (parse : J → Except String (List α))
    (yearOf : α → Int) (cleanPfx nowTs raw_key endpoint : String)
    (body : List Nat) (manifest : List (String × ManifestEntry))
    (hc : (lookupEntry manifest raw_key).map (fun e => e.hash)
        ≠ some (hashFn body))
    (hdec : decodeJson body = none) :
    transform_raw_object hashFn decodeJson parse yearOf cleanPfx nowTs raw_key
        endpoint body manifest
      = .ok ⟨false, manifest, false, [], .invalidJson⟩ := by
  unfold transform_raw_object
  rw [if_neg hc, hdec]

/-- Evaluation of `transform_raw_object` on the empty-result path. -/
theorem transform_eval_empty {J α : Type} (hashFn : List Nat → String)
    (decodeJson : List Nat → Option J) (parse : J → Except String (List α))
    (yearOf : α → Int) (cleanPfx nowTs raw_key endpoint : String)
    (body : List Nat) (manifest : List (String × ManifestEntry)) (data : J)
    (hc : (lookupEntry manifest raw_key).map (fun e => e.hash)
        ≠ some (hashFn body))
    (hdec : decodeJson body = some data) (hp : parse data = .ok []) :
    transform_raw_object hashFn decodeJson parse yearOf cleanPfx nowTs raw_key
        endpoint body manifest
      = .ok ⟨false,
             updateEntry manifest raw_key ⟨hashFn body, 0, none, nowTs⟩,
             true, [], .noValidRows⟩ := by
  unfold transform_raw_object
  rw [if_neg hc, hdec]
  dsimp only
  rw [hp]
  rfl

/-- Evaluation of `transform_raw_object` on the processed path. -/
theorem transform_eval_processed {J α : Type} (hashFn : List Nat → String)
    (decodeJson : List Nat → Option J) (parse : J → Except String (List α))
    (yearOf : α → Int) (cleanPfx nowTs raw_key endpoint : String)
    (body : List Nat) (manifest : List (String × ManifestEntry)) (data : J)
    (df : List α)
    (hc : (lookupEntry manifest raw_key).map (fun e => e.hash)
        ≠ some (hashFn body))
    (hdec : decodeJson body = some data) (hp : parse data = .ok df)
    (hne : df ≠ []) :
    transform_raw_object hashFn decodeJson parse yearOf cleanPfx nowTs raw_key
        endpoint body manifest
      = .ok ⟨true,
             updateEntry manifest raw_key
               ⟨hashFn body, df.length,
                some (groupByYear yearOf df).length, nowTs⟩,
             true,
             (groupByYear yearOf df).map
               (fun g => (write_clean_parquet_key cleanPfx endpoint g.1, g.2)),
             .processed⟩ := by
  obtain ⟨d, ds, rfl⟩ := List.exists_cons_of_ne_nil hne
  unfold transform_raw_object
  rw [if_neg hc, hdec]
  dsimp only
  rw [hp]
  rfl

/-- Claim C1: a second `transform_raw_object` call whose bytes hash to the
value already recorded for the key is exactly the unchanged no-op —
returns false, performs zero partition writes, does not save, and leaves
the manifest untouched — and the call is that no-op if and only if the
stored hash matches, i.e. the object is reprocessed exactly when its
current content hash differs from the stored one or no entry exists;
moreover any call that saved the manifest stored the current hash, so an
immediate re-run on the resulting manifest is the no-op. -/
theorem C1_unchanged_skip_iff {J α : Type} (hashFn : List Nat → String)
    (decodeJson : List Nat → Option J) (parse : J → Except String (List α))
    (yearOf : α → Int) (cleanPfx nowTs nowTs2 raw_key endpoint : String)
    (body : List Nat) (manifest : List (String × ManifestEntry)) :
    (transform_raw_object hashFn decodeJson parse yearOf cleanPfx nowTs raw_key
        endpoint body manifest
      = .ok ⟨false, manifest, false, [], .skippedUnchanged⟩
     ↔ (lookupEntry manifest raw_key).map (fun e => e.hash)
         = some (hashFn body)) ∧
    (∀ out, transform_raw_object hashFn decodeJson parse yearOf cleanPfx nowTs
        raw_key endpoint body manifest = .ok out → out.manifestSaved = true →
      transform_raw_object hashFn decodeJson parse yearOf cleanPfx nowTs2
          raw_key endpoint body out.manifest
        = .ok ⟨false, out.manifest, false, [], .skippedUnchanged⟩) := by
  have hmain : ∀ out, transform_raw_object hashFn decodeJson parse yearOf
      cleanPfx nowTs raw_key endpoint body manifest = .ok out →
      out.manifestSaved = true →
      (lookupEntry out.manifest raw_key).map (fun e => e.hash)
        = some (hashFn body) := by
    intro out h1 hsaved
    by_cases hc : (lookupEntry manifest raw_key).map (fun e => e.hash)
        = some (hashFn body)
    · rw [transform_eval_skip hashFn decodeJson parse yearOf cleanPfx nowTs
        raw_key endpoint body manifest hc] at h1
      simp only [Except.ok.injEq] at h1
      subst h1
      simp at hsaved
    · cases hdec : decodeJson body with
      | none =>
        rw [transform_eval_invalid hashFn decodeJson parse yearOf cleanPfx nowTs
          raw_key endpoint body manifest hc hdec] at h1
        simp only [Except.ok.injEq] at h1
        subst h1
        simp at hsaved
      | some data =>
        cases hp : parse data with
        | error e =>
          unfold transform_raw_object at h1
          rw [if_neg hc, hdec] at h1
          dsimp only at h1
          rw [hp] at h1
          simp at h1
        | ok df =>
          cases df with
          | nil =>
            rw [transform_eval_empty hashFn decodeJson parse yearOf cleanPfx
              nowTs raw_key endpoint body manifest data hc hdec hp] at h1
            simp only [Except.ok.injEq] at h1
            subst h1
            simp [lookupEntry_updateEntry]
          | cons d ds =>
            rw [transform_eval_processed hashFn decodeJson parse yearOf cleanPfx
              nowTs raw_key endpoint body manifest data (d :: ds) hc hdec hp
              (by simp)] at h1
            simp only [Except.ok.injEq] at h1
            subst h1
            simp [lookupEntry_updateEntry]
  refine ⟨⟨?_, ?_⟩, ?_⟩
  · intro heq
    by_cases hc : (lookupEntry manifest raw_key).map (fun e => e.hash)
        = some (hashFn body)
    · exact hc
    · exfalso
      cases hdec : decodeJson body with
      | none =>
        rw [transform_eval_invalid hashFn decodeJson parse yearOf cleanPfx nowTs
          raw_key endpoint body manifest hc hdec] at heq
        simp at heq
      | some data =>
        cases hp : parse data with
        | error e =>
          unfold transform_raw_object at heq
          rw [if_neg hc, hdec] at heq
          dsimp only at heq
          rw [hp] at heq
          simp at heq
        | ok df =>
          cases df with
          | nil =>
            rw [transform_eval_empty hashFn decodeJson parse yearOf cleanPfx
              nowTs raw_key endpoint body manifest data hc hdec hp] at heq
            simp at heq
          | cons d ds =>
            rw [transform_eval_processed hashFn decodeJson parse yearOf cleanPfx
              nowTs raw_key endpoint body manifest data (d :: ds) hc hdec hp
              (by simp)] at heq
            simp at heq
  · intro h
    exact transform_eval_skip hashFn decodeJson parse yearOf cleanPfx nowTs
      raw_key endpoint body manifest h
  · intro out h1 hsaved
    exact transform_eval_skip hashFn decodeJson parse yearOf cleanPfx nowTs2
      raw_key endpoint body out.manifest (hmain out h1 hsaved)

/-- Concatenating the per-year filter groups over a duplicate-free list of
years that covers every row's year is a permutation of the table: each row
lands in exactly one group. -/
theorem join_filters_perm {α : Type} (yearOf : α → Int) :
    ∀ (ys : List Int) (l : List α), ys.Nodup → (∀ a ∈ l, yearOf a ∈ ys) →
      ((ys.map (fun y => l.filter (fun r => yearOf r == y))).flatten).Perm l := by
  intro ys
  induction ys with
  | nil =>
    intro l _ hcov
    have hl : l = [] := by
      cases l with
      | nil => rfl
      | cons a t => exact absurd (hcov a (by simp)) (by simp)
    subst hl
    simp
  | cons y ys ih =>
    intro l hnd hcov
    rw [List.nodup_cons] at hnd
    obtain ⟨hy, hndt⟩ := hnd
    simp only [List.map_cons, List.flatten_cons]
    have hmap : ys.map (fun z => l.filter (fun r => yearOf r == z))
        = ys.map (fun z =>
            (l.filter (fun r => !(yearOf r == y))).filter
              (fun r => yearOf r == z)) := by
      apply List.map_congr_left
      intro z hz
      rw [List.filter_filter]
      apply List.filter_congr
      intro a _
      by_cases hzz : yearOf a = z
      · have hzy : ¬ z = y := by
          intro hh
          rw [hh] at hz
          exact hy hz
        simp [hzz, hzy]
      · simp [hzz]
    rw [hmap]
    have hcov' : ∀ a ∈ l.filter (fun r => !(yearOf r == y)), yearOf a ∈ ys := by
      intro a ha
      simp only [List.mem_filter, Bool.not_eq_true', beq_eq_false_iff_ne] at ha
      have := hcov a ha.1
      simp only [List.mem_cons] at this
      rcases this with h | h
      · exact absurd h ha.2
      · exact h
    have ihl := ih (l.filter (fun r => !(yearOf r == y))) hndt hcov'
    exact List.Perm.trans
      (ihl.append_left (l.filter (fun r => yearOf r == y)))
      (List.filter_append_perm (fun r => yearOf r == y) l)

/-- The distinct-year list has no duplicates. -/
theorem distinctYears_nodup {α : Type} (yearOf : α → Int) (df : List α) :
    (distinctYears yearOf df).Nodup :=
  ((List.perm_insertionSort (fun a b => a ≤ b) ((df.map yearOf).dedup)).nodup_iff).mpr
    (List.nodup_dedup _)

/-- A year is a distinct year of the table exactly when some row has it. -/
theorem mem_distinctYears {α : Type} (yearOf : α → Int) (df : List α) (y : Int) :
    y ∈ distinctYears yearOf df ↔ ∃ r ∈ df, yearOf r = y := by
  unfold distinctYears
  rw [(List.perm_insertionSort (fun a b => a ≤ b) ((df.map yearOf).dedup)).mem_iff]
  simp [List.mem_dedup, List.mem_map]

/-- Claim C2: on a non-empty parsed table a `transform_raw_object` call
performs exactly one partition write per distinct year (the write list is
indexed by the duplicate-free distinct-year list); each write goes to
`<clean-prefix>/<endpoint>/year=<Y>/data.parquet` and carries exactly the
rows whose year is that partition's year, as a full overwrite of the key;
a year is written iff some row has it; the concatenation of all written
groups is a permutation of the parsed table (the union covers it exactly
once); the call returns true; and the manifest entry records the total
row count and the partition count. -/
theorem C2_partition_correctness {J α : Type} (hashFn : List Nat → String)
    (decodeJson : List Nat → Option J) (parse : J → Except String (List α))
    (yearOf : α → Int) (cleanPfx nowTs raw_key endpoint : String)
    (body : List Nat) (manifest : List (String × ManifestEntry)) (data : J)
    (df : List α)
    (hc : (lookupEntry manifest raw_key).map (fun e => e.hash)
        ≠ some (hashFn body))
    (hdec : decodeJson body = some data) (hp : parse data = .ok df)
    (hne : df ≠ []) :
    transform_raw_object hashFn decodeJson parse yearOf cleanPfx nowTs raw_key
        endpoint body manifest
      = .ok ⟨true,
             updateEntry manifest raw_key
               ⟨hashFn body, df.length,
                some (distinctYears yearOf df).length, nowTs⟩,
             true,
             (distinctYears yearOf df).map
               (fun y => (write_clean_parquet_key cleanPfx endpoint y,
                          df.filter (fun r => yearOf r == y))),
             .processed⟩ ∧
    (distinctYears yearOf df).Nodup ∧
    (∀ y, y ∈ distinctYears yearOf df ↔ ∃ r ∈ df, yearOf r = y) ∧
    ((distinctYears yearOf df).map
        (fun y => df.filter (fun r => yearOf r == y))).flatten.Perm df := by
  refine ⟨?_, distinctYears_nodup yearOf df, mem_distinctYears yearOf df, ?_⟩
  · rw [transform_eval_processed hashFn decodeJson parse yearOf cleanPfx nowTs
      raw_key endpoint body manifest data df hc hdec hp hne]
    simp [groupByYear, List.map_map, Function.comp]
  · exact join_filters_perm yearOf (distinctYears yearOf df) df
      (distinctYears_nodup yearOf df)
      (fun a ha => (mem_distinctYears yearOf df (yearOf a)).mpr ⟨a, ha, rfl⟩)

/-- Witness for C2 at a concrete input: four rows spanning the years
{2019, 2020, 2021} (2020 twice) produce exactly three partition writes,
each holding its year's rows, and a manifest entry with 4 rows and 3
partitions. -/
theorem C2_partition_correctness_witness :
    transform_raw_object (fun _ => "h") (fun _ => some ())
        (fun _ => .ok [(2019 : Int), 2020, 2021, 2020]) (fun r => r)
        "public-health/clean/" "t0" "k" "life_expectancy" [0] []
      = .ok ⟨true,
             updateEntry [] "k"
               ⟨"h", ([(2019 : Int), 2020, 2021, 2020]).length,
                some (distinctYears (fun r => r)
                  [(2019 : Int), 2020, 2021, 2020]).length, "t0"⟩,
             true,
             (distinctYears (fun r => r) [(2019 : Int), 2020, 2021, 2020]).map
               (fun y => (write_clean_parquet_key "public-health/clean/"
                            "life_expectancy" y,
                          ([(2019 : Int), 2020, 2021, 2020]).filter
                            (fun r => r == y))),
             .processed⟩ ∧
    (distinctYears (fun r => r) [(2019 : Int), 2020, 2021, 2020]).Nodup ∧
    (∀ y, y ∈ distinctYears (fun r => r) [(2019 : Int), 2020, 2021, 2020]
       ↔ ∃ r ∈ [(2019 : Int), 2020, 2021, 2020], r = y) ∧
    ((distinctYears (fun r => r) [(2019 : Int), 2020, 2021, 2020]).map
        (fun y => ([(2019 : Int), 2020, 2021, 2020]).filter
          (fun r => r == y))).flatten.Perm [(2019 : Int), 2020, 2021, 2020] :=
  C2_partition_correctness (fun _ => "h") (fun _ => some ())
    (fun _ => .ok [(2019 : Int), 2020, 2021, 2020]) (fun r => r)
    "public-health/clean/" "t0" "k" "life_expectancy" [0] [] () _
    (by decide) rfl rfl (by decide)

/-- Claim C5: on bytes that do not decode as JSON (and a hash differing
from the stored one) the transform returns false, saves nothing, writes
nothing, and the manifest after the call equals the manifest before it. -/
theorem C5_invalid_payload {J α : Type} (hashFn : List Nat → String)
    (decodeJson : List Nat → Option J) (parse : J → Except String (List α))
    (yearOf : α → Int) (cleanPfx nowTs raw_key endpoint : String)
    (body : List Nat) (manifest : List (String × ManifestEntry))
    (hc : (lookupEntry manifest raw_key).map (fun e => e.hash)
        ≠ some (hashFn body))
    (hdec : decodeJson body = none) :
    transform_raw_object hashFn decodeJson parse yearOf cleanPfx nowTs raw_key
        endpoint body manifest
      = .ok ⟨false, manifest, false, [], .invalidJson⟩ :=
  transform_eval_invalid hashFn decodeJson parse yearOf cleanPfx nowTs raw_key
    endpoint body manifest hc hdec

/-- Witness for C5 at a concrete input: undecodable bytes keep a one-entry
manifest exactly as it was. -/
theorem C5_invalid_payload_witness :
    transform_raw_object (fun _ => "h2") (fun _ => (none : Option Unit))
        (fun _ => .ok ([] : List Int)) (fun r => r)
        "public-health/clean/" "t0" "k" "life_expectancy" [0]
        [("k", ⟨"h1", 3, some 1, "t-1"⟩)]
      = .ok ⟨false, [("k", ⟨"h1", 3, some 1, "t-1"⟩)], false, [],
             .invalidJson⟩ :=
  C5_invalid_payload (fun _ => "h2") (fun _ => (none : Option Unit))
    (fun _ => .ok ([] : List Int)) (fun r => r)
    "public-health/clean/" "t0" "k" "life_expectancy" [0]
    [("k", ⟨"h1", 3, some 1, "t-1"⟩)] (by decide) rfl

/-- Claim C6: a payload that decodes but parses to zero rows records a
manifest entry with the current hash and zero rows, returns false, and a
second invocation with the same bytes on the resulting manifest is the
unchanged no-op (not reprocessed, not an error). -/
theorem C6_empty_result {J α : Type} (hashFn : List Nat → String)
    (decodeJson : List Nat → Option J) (parse : J → Except String (List α))
    (yearOf : α → Int) (cleanPfx nowTs nowTs2 raw_key endpoint : String)
    (body : List Nat) (manifest : List (String × ManifestEntry)) (data : J)
    (hc : (lookupEntry manifest raw_key).map (fun e => e.hash)
        ≠ some (hashFn body))
    (hdec : decodeJson body = some data) (hp : parse data = .ok []) :
    transform_raw_object hashFn decodeJson parse yearOf cleanPfx nowTs raw_key
        endpoint body manifest
      = .ok ⟨false,
             updateEntry manifest raw_key ⟨hashFn body, 0, none, nowTs⟩,
             true, [], .noValidRows⟩ ∧
    lookupEntry (updateEntry manifest raw_key ⟨hashFn body, 0, none, nowTs⟩)
        raw_key = some ⟨hashFn body, 0, none, nowTs⟩ ∧
    transform_raw_object hashFn decodeJson parse yearOf cleanPfx nowTs2 raw_key
        endpoint body
        (updateEntry manifest raw_key ⟨hashFn body, 0, none, nowTs⟩)
      = .ok ⟨false,
             updateEntry manifest raw_key ⟨hashFn body, 0, none, nowTs⟩,
             false, [], .skippedUnchanged⟩ := by
  refine ⟨transform_eval_empty hashFn decodeJson parse yearOf cleanPfx nowTs
    raw_key endpoint body manifest data hc hdec hp,
    lookupEntry_updateEntry manifest raw_key _, ?_⟩
  apply transform_eval_skip
  rw [lookupEntry_updateEntry]
  rfl

/-- Witness for C6 at a concrete input: the empty-result entry is written
with zero rows and the second call is the unchanged no-op. -/
theorem C6_empty_result_witness :
    transform_raw_object (fun _ => "h") (fun _ => some ())
        (fun _ => .ok ([] : List Int)) (fun r => r)
        "public-health/clean/" "t0" "k" "life_expectancy" [0] []
      = .ok ⟨false, updateEntry [] "k" ⟨"h", 0, none, "t0"⟩, true, [],
             .noValidRows⟩ ∧
    lookupEntry (updateEntry [] "k" ⟨"h", 0, none, "t0"⟩) "k"
      = some ⟨"h", 0, none, "t0"⟩ ∧
    transform_raw_object (fun _ => "h") (fun _ => some ())
        (fun _ => .ok ([] : List Int)) (fun r => r)
        "public-health/clean/" "t1" "k" "life_expectancy" [0]
        (updateEntry [] "k" ⟨"h", 0, none, "t0"⟩)
      = .ok ⟨false, updateEntry [] "k" ⟨"h", 0, none, "t0"⟩, false, [],
             .skippedUnchanged⟩ :=
  C6_empty_result (fun _ => "h") (fun _ => some ())
    (fun _ => .ok ([] : List Int)) (fun r => r)
    "public-health/clean/" "t0" "t1" "k" "life_expectancy" [0] [] ()
    (by decide) rfl rfl

/-- Counterexample to claim C7: the manifest entry written on the
empty-result path has the hash, the row count and the timestamp but no
`written_partitions` key (modelled as the field being `none`), so not
every written entry carries all four documented attributes. -/
theorem C7_counterexample :
    transform_raw_object (fun _ => "h") (fun _ => some ())
        (fun _ => .ok ([] : List Int)) (fun r => r)
        "public-health/clean/" "t0" "k" "life_expectancy" [0] []
      = .ok ⟨false, [("k", ⟨"h", 0, none, "t0"⟩)], true, [], .noValidRows⟩ ∧
    (ManifestEntry.mk "h" 0 none "t0").written_partitions = none := by
  exact ⟨rfl, rfl⟩

/-- Claim C7 as amended: an entry written on the processed path carries
all four documented attributes (hash, row count, written-partition count,
timestamp); an entry written on the empty-result path carries the hash,
the row count (zero) and the timestamp, but omits the written-partition
count. -/
theorem C7_amended_manifest_shape {J α : Type} (hashFn : List Nat → String)
    (decodeJson : List Nat → Option J) (parse : J → Except String (List α))
    (yearOf : α → Int) (cleanPfx nowTs raw_key endpoint : String)
    (body : List Nat) (manifest : List (String × ManifestEntry)) (data : J)
    (hc : (lookupEntry manifest raw_key).map (fun e => e.hash)
        ≠ some (hashFn body))
    (hdec : decodeJson body = some data) :
    (∀ df out, parse data = .ok df → df ≠ [] →
      transform_raw_object hashFn decodeJson parse yearOf cleanPfx nowTs
          raw_key endpoint body manifest = .ok out →
      ∃ e, lookupEntry out.manifest raw_key = some e ∧ e.hash = hashFn body ∧
        e.rows = df.length ∧
        e.written_partitions = some (distinctYears yearOf df).length ∧
        e.processed_at = nowTs) ∧
    (∀ out, parse data = .ok [] →
      transform_raw_object hashFn decodeJson parse yearOf cleanPfx nowTs
          raw_key endpoint body manifest = .ok out →
      ∃ e, lookupEntry out.manifest raw_key = some e ∧ e.hash = hashFn body ∧
        e.rows = 0 ∧ e.processed_at = nowTs ∧ e.written_partitions = none) := by
  constructor
  · intro df out hp hne hrun
    rw [transform_eval_processed hashFn decodeJson parse yearOf cleanPfx nowTs
      raw_key endpoint body manifest data df hc hdec hp hne] at hrun
    simp only [Except.ok.injEq] at hrun
    subst hrun
    refine ⟨_, lookupEntry_updateEntry manifest raw_key _, rfl, rfl, ?_, rfl⟩
    simp [groupByYear]
  · intro out hp hrun
    rw [transform_eval_empty hashFn decodeJson parse yearOf cleanPfx nowTs
      raw_key endpoint body manifest data hc hdec hp] at hrun
    simp only [Except.ok.injEq] at hrun
    subst hrun
    exact ⟨_, lookupEntry_updateEntry manifest raw_key _, rfl, rfl, rfl, rfl⟩

/-- Witness for the amended C7 at a concrete processed input. -/
theorem C7_amended_manifest_shape_witness :
    (∀ df out, (fun _ => .ok [(2021 : Int)] : Unit → Except String (List Int)) ()
        = .ok df → df ≠ [] →
      transform_raw_object (fun _ => "h") (fun _ => some ())
          (fun _ => .ok [(2021 : Int)]) (fun r => r)
          "public-health/clean/" "t0" "k" "life_expectancy" [0] [] = .ok out →
      ∃ e, lookupEntry out.manifest "k" = some e ∧ e.hash = "h" ∧
        e.rows = df.length ∧
        e.written_partitions = some (distinctYears (fun r => r) df).length ∧
        e.processed_at = "t0") ∧
    (∀ out, (fun _ => .ok [(2021 : Int)] : Unit → Except String (List Int)) ()
        = .ok [] →
      transform_raw_object (fun _ => "h") (fun _ => some ())
          (fun _ => .ok [(2021 : Int)]) (fun r => r)
          "public-health/clean/" "t0" "k" "life_expectancy" [0] [] = .ok out →
      ∃ e, lookupEntry out.manifest "k" = some e ∧ e.hash = "h" ∧
        e.rows = 0 ∧ e.processed_at = "t0" ∧ e.written_partitions = none) :=
  C7_amended_manifest_shape (fun _ => "h") (fun _ => some ())
    (fun _ => .ok [(2021 : Int)]) (fun r => r)
    "public-health/clean/" "t0" "k" "life_expectancy" [0] [] ()
    (by decide) rfl

/-- A value passing the 3-character filter is a string of length 3. -/
theorem keepLen3_spec (v : PyVal) (h : keepLen3 v = true) :
    ∃ s, v = .pstr s ∧ s.length = 3 := by
  cases v with
  | pstr s => exact ⟨s, rfl, by simpa [keepLen3] using h⟩
  | pnone => simp [keepLen3] at h
  | pint n => simp [keepLen3] at h
  | plist xs => simp [keepLen3] at h
  | pdict kvs => simp [keepLen3] at h

/-- Claim C3: every row of a table either tabular parser returns has a
country code that is a string of exactly 3 characters; consequently no
input row with a null, 2-character, or other non-3-character aggregate
code ever appears in a returned table. -/
theorem C3_country_filter_invariant (dataG dataW : PyVal) (tG : List GhoRow)
    (tW : List WbRowF) (hG : parse_gho_json dataG = .ok tG)
    (hW : parse_worldbank_json dataW = .ok tW) :
    (∀ r ∈ tG, ∃ s, r.country_code = .pstr s ∧ s.length = 3) ∧
    (∀ r ∈ tW, ∃ s, r.country_code = .pstr s ∧ s.length = 3) := by
  constructor
  · cases dataG with
    | pdict kvs =>
      unfold parse_gho_json at hG
      dsimp only at hG
      cases hiter : pyIterate ((dictGet kvs "value").getD (.plist [])) with
      | error e => rw [hiter] at hG; simp at hG
      | ok recs =>
        rw [hiter] at hG
        by_cases he : (recs.filterMap ghoRecRow).isEmpty
        · simp [he] at hG
        · simp only [he, if_false, Bool.false_eq_true, Except.ok.injEq] at hG
          subst hG
          intro r hr
          rw [List.mem_filter] at hr
          exact keepLen3_spec r.country_code hr.2
    | pnone => simp [parse_gho_json] at hG
    | pstr s => simp [parse_gho_json] at hG
    | pint n => simp [parse_gho_json] at hG
    | plist xs => simp [parse_gho_json] at hG
  · unfold parse_worldbank_json at hW
    cases hiter : pyIterate (wbRecords dataW) with
    | error e => rw [hiter] at hW; simp at hW
    | ok recs =>
      rw [hiter] at hW
      dsimp only at hW
      cases hmap : recs.mapM wbRecRow with
      | error e => rw [hmap] at hW; simp at hW
      | ok rows =>
        rw [hmap] at hW
        dsimp only at hW
        unfold wbFrameStage at hW
        by_cases he : rows.isEmpty
        · simp [he] at hW
        · simp only [he, if_false, Bool.false_eq_true, Except.ok.injEq] at hW
          subst hW
          intro r hr
          simp only [List.mem_filterMap, List.mem_filter,
            Option.map_eq_some'] at hr
          obtain ⟨a, ha, y, hy, rfl⟩ := hr
          exact keepLen3_spec a.country_code ha.1.2

/-- Witness for C3 at concrete payloads holding a valid row next to rows
with a 2-character code, a null code, and a longer aggregate code: only
the 3-character row survives in each parser's output. -/
theorem C3_country_filter_invariant_witness :
    (∀ r ∈ [GhoRow.mk (.pstr "NGA") 2021 (to_numeric_coerce (.pstr "52.3"))
              (.pstr "X1")],
       ∃ s, r.country_code = .pstr s ∧ s.length = 3) ∧
    (∀ r ∈ [WbRowF.mk (.pstr "NGA") 2020 (to_numeric_coerce (.pint 5))
              (.pstr "SH.MED")],
       ∃ s, r.country_code = .pstr s ∧ s.length = 3) :=
  C3_country_filter_invariant
    (.pdict [("value", .plist
      [.pdict [("TimeDim", .pstr "2021"), ("SpatialDim", .pstr "NGA"),
               ("NumericValue", .pstr "52.3"), ("IndicatorCode", .pstr "X1")],
       .pdict [("TimeDim", .pstr "2021"), ("SpatialDim", .pstr "NG")],
       .pdict [("TimeDim", .pstr "2021")],
       .pdict [("TimeDim", .pstr "2021"), ("SpatialDim", .pstr "GLOBAL")]])])
    (.plist [.pdict [], .plist
      [.pdict [("countryiso3code", .pstr "NGA"), ("date", .pstr "2020"),
               ("value", .pint 5),
               ("indicator", .pdict [("id", .pstr "SH.MED")])],
       .pdict [("countryiso3code", .pstr "ZZ"), ("date", .pstr "2020")],
       .pdict [("countryiso3code", .pnone), ("date", .pstr "2020")],
       .pdict [("countryiso3code", .pstr "NGA")]]])
    _ _ rfl rfl

/-- Claim C4 fails on the code: both tabular parsers raise on degenerate
payloads instead of returning an empty table.  A decoded `{"value": []}`
(or any payload whose record loop yields no rows) leaves `pd.DataFrame`
with zero columns, so `df["country_code"]` raises `KeyError`; a non-dict
GHO payload raises `AttributeError` at `data.get`; and the World Bank
parser propagates `ValueError` from `int(rec["date"])` on a non-numeric
date instead of excluding the row — unlike the GHO parser, which catches
the same failure and skips the record (final conjunct). -/
theorem C4_parsers_raise_on_degenerate_payloads :
    parse_gho_json (.pdict [("value", .plist [])]) = .error "KeyError" ∧
    parse_gho_json (.plist []) = .error "AttributeError" ∧
    parse_worldbank_json (.plist []) = .error "KeyError" ∧
    parse_worldbank_json
        (.plist [.pdict [], .plist [.pdict [("date", .pstr "2020Q1")]]])
      = .error "ValueError" ∧
    parse_gho_json (.pdict [("value", .plist
        [.pdict [("TimeDim", .pstr "2020Q1"), ("SpatialDim", .pstr "NGA")],
         .pdict [("TimeDim", .pint 2021), ("SpatialDim", .pstr "NGA")]])])
      = .ok [GhoRow.mk (.pstr "NGA") 2021 none .pnone] :=
  ⟨rfl, rfl, rfl, rfl, rfl⟩

/-- Claim C8: country extraction on the two reference titles, plus the
stage-1 loop discipline — dash segments are tried right to left (the last
segment first), a candidate longer than 40 characters is rejected
outright (the loop moves on to the next segment), and the first
successful lookup wins regardless of what earlier (left) segments hold. -/
theorem C8_extractor_determinism :
    extract_country_from_title (some "Cholera – situation in Nigeria")
      = (some "Nigeria", some "NG", some "NGA") ∧
    extract_country_from_title (some "Update on outbreak")
      = (none, none, none) ∧
    (∀ ps s, (normalizeSegment s).length > 40 →
      dashLoop ((ps ++ [s]).reverse) = dashLoop ps.reverse) ∧
    (∀ ps s, (lookup_country (normalizeSegment s)).1.isSome = true →
      ¬ (normalizeSegment s).length > 40 →
      (normalizeSegment s).data.isEmpty = false →
      dashLoop ((ps ++ [s]).reverse)
        = some (lookup_country (normalizeSegment s))) := by
  refine ⟨rfl, rfl, ?_, ?_⟩
  · intro ps s h
    rw [List.reverse_append]
    simp [dashLoop, h]
  · intro ps s hsome h40 hne
    rw [List.reverse_append]
    simp [dashLoop, h40, hne, hsome]

/-- Witness for the universally quantified parts of C8: with segments
["Cholera", "situation in Nigeria"] the last segment is normalized and
looked up first and wins, and a 60-character candidate as the last
segment is rejected outright, the loop falling through to the earlier
segment. -/
theorem C8_extractor_determinism_witness :
    dashLoop ((["Cholera"] ++ ["situation in Nigeria"]).reverse)
      = some (lookup_country (normalizeSegment "situation in Nigeria")) ∧
    dashLoop ((["Nigeria"]
        ++ ["this trailing segment is far longer than the forty character cap"]).reverse)
      = dashLoop ["Nigeria"].reverse :=
  ⟨C8_extractor_determinism.2.2.2 ["Cholera"] "situation in Nigeria"
      (by decide) (by decide) (by decide),
   C8_extractor_determinism.2.2.1 ["Nigeria"]
      "this trailing segment is far longer than the forty character cap"
      (by decide)⟩

/-- Counterexample to claim C9: when `date_expr` itself contains a
parenthesized subexpression, the `[^)]+` group stops at the first closing
parenthesis, so the interval is spliced inside the inner call instead of
being appended after the date expression — the output is not the claimed
infix rewrite of the call. -/
theorem C9_counterexample_nested_paren :
    translate_athena_to_duckdb "SELECT date_add('day', 1, coalesce(x, y))"
      = "SELECT coalesce(x, y + INTERVAL '1' days)" ∧
    ¬ translate_athena_to_duckdb "SELECT date_add('day', 1, coalesce(x, y))"
        = "SELECT coalesce(x, y) + INTERVAL '1' days" := by
  refine ⟨rfl, ?_⟩
  intro h
  rw [show translate_athena_to_duckdb "SELECT date_add('day', 1, coalesce(x, y))"
      = "SELECT coalesce(x, y + INTERVAL '1' days)" from rfl] at h
  exact absurd h (by decide)

/-- Strings are equal when their character data is. -/
theorem strExt (s t : String) (h : s.data = t.data) : s = t := by
  cases s
  cases t
  cases h
  rfl

/-- `(a ++ b).data = a.data ++ b.data` for strings. -/
theorem strData_append (a b : String) : (a ++ b).data = a.data ++ b.data := by
  cases a
  cases b
  rfl

/-- The per-match rewrite for unit `day` and value `-30`, for every date
expression: the stripped expression, a minus from the sign, and the
pluralized unit. -/
theorem replace_date_add_day_neg30 (e : String) :
    replace_date_add "day" "-30" e = sTrim e ++ " - INTERVAL '30' days" := by
  apply strExt
  show (sTrim e ++ " " ++ "-" ++ " INTERVAL '" ++ "30" ++ "' " ++ "days").data
      = (sTrim e ++ " - INTERVAL '30' days").data
  simp only [strData_append, List.append_assoc]
  rfl

/-- A prefix all of whose characters satisfy the predicate is exactly what
`takeWhile` takes when the next character fails it. -/
theorem takeWhile_append_all {p : Char → Bool} :
    ∀ (l : List Char), (∀ c ∈ l, p c = true) →
    ∀ (c0 : Char), p c0 = false → ∀ (rest : List Char),
      (l ++ c0 :: rest).takeWhile p = l := by
  intro l
  induction l with
  | nil =>
    intro _ c0 h0 rest
    simp [List.takeWhile_cons, h0]
  | cons a l ih =>
    intro h c0 h0 rest
    have ha := h a (by simp)
    simp only [List.cons_append, List.takeWhile_cons, ha, if_true]
    rw [ih (fun c hc => h c (by simp [hc])) c0 h0 rest]

/-- On text that is a parenthesis-free expression followed by `)` and
nothing else, the `([^)]+)\)` matcher captures exactly the expression
(with the leading whitespace the enclosing pattern left in front). -/
theorem matchExprParen_closed (expr : List Char)
    (hnp : ∀ c ∈ expr, (c != ')') = true) :
    matchExprParen (' ' :: (expr ++ [')'])) = some (' ' :: expr, []) := by
  have h1 : List.takeWhile (fun c => c != ')') (' ' :: (expr ++ [')']))
      = ' ' :: expr := by
    rw [List.takeWhile_cons]
    have hsp : ((' ' : Char) != ')') = true := rfl
    rw [hsp]
    simp only [if_true]
    rw [takeWhile_append_all expr hnp ')' rfl []]
  unfold matchExprParen
  rw [h1]
  have hemp : (' ' :: expr).isEmpty = false := rfl
  simp only [hemp, Bool.false_eq_true, if_false]
  have h2 : (' ' :: (expr ++ [')'])).drop (' ' :: expr).length = [')'] :=
    List.drop_left (' ' :: expr) [')']
  rw [h2]
  rfl

/-- The `re.sub` scanner on an exhausted text is done, whatever fuel is
left. -/
theorem subDateAddAux_nil : ∀ (fuel : Nat), subDateAddAux fuel [] = [] := by
  intro fuel
  cases fuel <;> rfl

/-- The `date_add` pattern matches the call
`date_add('day', -30, <expr>)` for every parenthesis-free `expr`,
grouping the unit, the signed value, and the expression (with the
whitespace after the comma, which `replace_date_add` strips). -/
theorem tryDateAdd_day_neg30 (expr : List Char)
    (hnp : ∀ c ∈ expr, (c != ')') = true) :
    tryDateAdd ("date_add('day', -30, ".data ++ (expr ++ [')']))
      = some ⟨"day", "-30", String.mk (' ' :: expr), []⟩ := by
  have step : tryDateAdd ("date_add('day', -30, ".data ++ (expr ++ [')']))
      = tryDateAddTail ['d', 'a', 'y']
          ([',', ' ', '-', '3', '0', ',', ' '] ++ (expr ++ [')'])) := rfl
  rw [step]
  unfold tryDateAddTail
  have hc1 : matchComma ([',', ' ', '-', '3', '0', ',', ' '] ++ (expr ++ [')']))
      = some ([' ', '-', '3', '0', ',', ' '] ++ (expr ++ [')'])) := rfl
  rw [hc1]
  dsimp only
  have hv : matchSignedInt ([' ', '-', '3', '0', ',', ' '] ++ (expr ++ [')']))
      = some (['-', '3', '0'], [',', ' '] ++ (expr ++ [')'])) := rfl
  rw [hv]
  dsimp only
  have hc2 : matchComma ([',', ' '] ++ (expr ++ [')']))
      = some ([' '] ++ (expr ++ [')'])) := rfl
  rw [hc2]
  dsimp only
  have hx : matchExprParen ([' '] ++ (expr ++ [')'])) = some (' ' :: expr, []) :=
    matchExprParen_closed expr hnp
  rw [hx]

/-- The rule-1 scanner rewrites `date_add('day', -30, <expr>)` to
`<stripped expr> - INTERVAL '30' days` for every parenthesis-free
expression. -/
theorem subDateAdd_day_neg30 (expr : List Char)
    (hnp : ∀ c ∈ expr, (c != ')') = true) :
    subDateAdd ("date_add('day', -30, ".data ++ (expr ++ [')']))
      = (sTrim (String.mk expr) ++ " - INTERVAL '30' days").data := by
  unfold subDateAdd
  show subDateAddAux
      ('d' :: ("ate_add('day', -30, ".data ++ (expr ++ [')']))).length
      ('d' :: ("ate_add('day', -30, ".data ++ (expr ++ [')'])))
    = _
  rw [List.length_cons]
  unfold subDateAddAux
  rw [show tryDateAdd ('d' :: ("ate_add('day', -30, ".data ++ (expr ++ [')'])))
      = some ⟨"day", "-30", String.mk (' ' :: expr), []⟩ from
      tryDateAdd_day_neg30 expr hnp]
  dsimp only
  rw [subDateAddAux_nil, List.append_nil]
  have hrepl : replace_date_add "day" "-30" (String.mk (' ' :: expr))
      = sTrim (String.mk expr) ++ " - INTERVAL '30' days" := by
    rw [replace_date_add_day_neg30 (String.mk (' ' :: expr))]
    rfl
  rw [hrepl]

/-- Claim C9 as amended (date-offset calls whose `date_expr` contains no
closing parenthesis): the translator turns the reference query into the
interval subtraction, which evaluates to the same date as the original
against any reference date; the per-match rewrite appends
`<date_expr> - INTERVAL '<n>' <plural unit>` for a negative integer and
`+` for a non-negative one, for every date expression; the unit is
pluralized through the fixed lookup with default `unit + "s"`; and the
rule-1 scanner performs that rewrite on the call
`date_add('day', -30, <expr>)` for every parenthesis-free expression. -/
theorem C9_amended_date_add_translation :
    translate_athena_to_duckdb "SELECT date_add('day', -30, CURRENT_DATE)"
      = "SELECT current_date - INTERVAL '30' days" ∧
    (∀ ref : Int, athena_date_add_days (-30) ref
       = duckdb_minus_interval_days 30 ref) ∧
    (∀ e : String, replace_date_add "day" "-30" e
       = sTrim e ++ " - INTERVAL '30' days") ∧
    (∀ e : String, replace_date_add "day" "30" e
       = sTrim e ++ " + INTERVAL '30' days") ∧
    replace_date_add "year" "3" "d" = "d + INTERVAL '3' years" ∧
    replace_date_add "month" "3" "d" = "d + INTERVAL '3' months" ∧
    replace_date_add "hour" "3" "d" = "d + INTERVAL '3' hours" ∧
    replace_date_add "minute" "3" "d" = "d + INTERVAL '3' minutes" ∧
    replace_date_add "second" "3" "d" = "d + INTERVAL '3' seconds" ∧
    replace_date_add "week" "2" "d" = "d + INTERVAL '2' weeks" ∧
    (∀ expr : List Char, (∀ c ∈ expr, (c != ')') = true) →
      subDateAdd ("date_add('day', -30, ".data ++ (expr ++ [')']))
        = (sTrim (String.mk expr) ++ " - INTERVAL '30' days").data) := by
  refine ⟨rfl, ?_, replace_date_add_day_neg30, ?_, rfl, rfl, rfl, rfl, rfl,
    rfl, subDateAdd_day_neg30⟩
  · intro ref
    simp [athena_date_add_days, duckdb_minus_interval_days, sub_eq_add_neg]
  · intro e
    apply strExt
    show (sTrim e ++ " " ++ "+" ++ " INTERVAL '" ++ "30" ++ "' " ++ "days").data
        = (sTrim e ++ " + INTERVAL '30' days").data
    simp only [strData_append, List.append_assoc]
    rfl

/-- Witness for the universally quantified parts of C9's amended claim,
at the reference call's own arguments. -/
theorem C9_amended_date_add_translation_witness :
    replace_date_add "day" "-30" "CURRENT_DATE"
      = sTrim "CURRENT_DATE" ++ " - INTERVAL '30' days" ∧
    athena_date_add_days (-30) 20089 = duckdb_minus_interval_days 30 20089 ∧
    subDateAdd ("date_add('day', -30, ".data ++ ("CURRENT_DATE".data ++ [')']))
      = (sTrim (String.mk "CURRENT_DATE".data) ++ " - INTERVAL '30' days").data :=
  ⟨C9_amended_date_add_translation.2.2.1 "CURRENT_DATE",
   C9_amended_date_add_translation.2.1 20089,
   C9_amended_date_add_translation.2.2.2.2.2.2.2.2.2.2 "CURRENT_DATE".data
     (by decide)⟩

/-- The engine model for the concrete C10 runs: fails on the query text
"BAD", returns a one-row result otherwise. -/
def execDemo : String → Except String Nat :=
  fun sqlText => if sqlText == "BAD" then .error "ParserError" else .ok 1

/-- Counterexample to claim C10: with three queries of which the second
fails, the run executes only the first two ("q3" is never started), the
exception propagates as the invocation's result, and no metrics document
is produced — the failing query is not skipped and the run does not
continue. -/
theorem C10_counterexample_abort :
    (run_duckdb_queries execDemo "evidence/athena" true true
        [("q1", "SELECT 1"), ("q2", "BAD"), ("q3", "SELECT 3")]).executed
      = ["q1", "q2"] ∧
    (run_duckdb_queries execDemo "evidence/athena" true true
        [("q1", "SELECT 1"), ("q2", "BAD"), ("q3", "SELECT 3")]).result
      = .error "ParserError" :=
  ⟨rfl, rfl⟩

/-- The query loop stops at the first failing query: every earlier query
executes, the failing one is started, nothing after it runs, and the
exception is the loop's result (so the metrics document is never
written). -/
theorem runLoop_fail (exec : String → Except String Nat)
    (evidenceDir : String) (exportJson exportCsv : Bool) :
    ∀ (pre : List (String × String)) (stem q errMsg : String)
      (post : List (String × String)),
      (∀ p ∈ pre, (exec (translate_athena_to_duckdb p.2)).isOk = true) →
      exec (translate_athena_to_duckdb q) = .error errMsg →
      runLoop exec evidenceDir exportJson exportCsv (pre ++ (stem, q) :: post)
        = ⟨pre.map (fun p => p.1) ++ [stem], .error errMsg⟩ := by
  intro pre
  induction pre with
  | nil =>
    intro stem q errMsg post _ hfail
    simp only [List.nil_append]
    unfold runLoop
    dsimp only
    rw [hfail]
    simp
  | cons p pre ih =>
    intro stem q errMsg post hpre hfail
    obtain ⟨pstem, psql⟩ := p
    have hp := hpre (pstem, psql) (by simp)
    cases hx : exec (translate_athena_to_duckdb psql) with
    | error e =>
      rw [hx] at hp
      simp [Except.isOk, Except.toBool] at hp
    | ok n =>
      simp only [List.cons_append]
      unfold runLoop
      dsimp only
      rw [hx]
      dsimp only
      rw [ih stem q errMsg post (fun r hr => hpre r (by simp [hr])) hfail]
      simp [Except.map]

/-- Claim C10 as amended: when one query fails to execute against the
local engine, the failure is logged and the exception is re-raised —
the run aborts, the remaining queries are not executed, and no metrics
document is written; per-query failures do escalate to invocation-level
failure. -/
theorem C10_amended_failure_aborts_run (exec : String → Except String Nat)
    (evidenceDir : String) (exportJson exportCsv : Bool)
    (files pre post : List (String × String)) (stem q errMsg : String)
    (hsorted : sortFilesByStem files = pre ++ (stem, q) :: post)
    (hpre : ∀ p ∈ pre, (exec (translate_athena_to_duckdb p.2)).isOk = true)
    (hfail : exec (translate_athena_to_duckdb q) = .error errMsg)
    (hne : files ≠ []) :
    run_duckdb_queries exec evidenceDir exportJson exportCsv files
      = ⟨pre.map (fun p => p.1) ++ [stem], .error errMsg⟩ := by
  have hempty : files.isEmpty = false := by
    cases files with
    | nil => exact absurd rfl hne
    | cons a t => rfl
  unfold run_duckdb_queries
  rw [hempty]
  simp only [Bool.false_eq_true, if_false]
  rw [hsorted]
  exact runLoop_fail exec evidenceDir exportJson exportCsv pre stem q errMsg
    post hpre hfail

/-- Witness for the amended C10 at a concrete input: of three sorted
queries the second fails, so exactly ["q1", "q2"] are executed and the
exception is the run's outcome. -/
theorem C10_amended_failure_aborts_run_witness :
    run_duckdb_queries execDemo "evidence/athena" true true
        [("q1", "SELECT 1"), ("q2", "BAD"), ("q3", "SELECT 3")]
      = ⟨([("q1", "SELECT 1")] : List (String × String)).map (fun p => p.1)
          ++ ["q2"], .error "ParserError"⟩ :=
  C10_amended_failure_aborts_run execDemo "evidence/athena" true true
    [("q1", "SELECT 1"), ("q2", "BAD"), ("q3", "SELECT 3")]
    [("q1", "SELECT 1")] [("q3", "SELECT 3")] "q2" "BAD" "ParserError"
    (by decide) (by decide) rfl (by decide)

end HealthLake
